import Mathlib

/-!
The package go-udp: the dynamically typed `Value` of `value.go`

A shallow embedding of package `goudp` (`src/value.go`) and the properties of
its specification that concern the type tag, the setters, the array and object
accessors, the constructors and `release`.

Modelling conventions

* A `*Value` receiver is a non-nil pointer; a method call is a function from the
  node before the call to the node after it, together with what the call
  returns.  The tree a node owns is built only from freshly allocated children,
  so it is represented as a value (pointer identity of children is not
  represented).
* A pointer-typed slot (`*Value` inside a slice or a map) is an `Option`: `none`
  is the nil pointer.
* A slice is `Option (List _)`, `none` being the nil slice; a map is an
  `Option` of an association list, `none` being the nil map.
* `fmt.Errorf` values are represented by their format together with the
  arguments passed to it (`Error`).
* A run-time panic of an index expression or of a write to a nil map is an
  explicit outcome (`Outcome.panic`).
* `int64` and `uint64` payloads and the type tag are only stored and compared;
  they are integers and naturals.  The one arithmetic expression, `i+1` in
  `SetArray`, is computed on the 64-bit `int`, with wrap-around (`wrapInt`).
* `make` panics on a negative length and on a length beyond the bound of the
  run-time on one allocation (`maxAlloc`); running out of memory below that
  bound ends the process and is not represented.
-/

namespace goudp

/-! ## Data model -/

/-- The declaration `type VType int`. -/
abbrev VType := Int

/-- Constant `Undefined VType = iota`, the unknown value type. -/
abbrev VType.Undefined : VType := 0
/-- Constant `I64`. -/
abbrev VType.I64 : VType := 1
/-- Constant `U64`. -/
abbrev VType.U64 : VType := 2
/-- Constant `F64`. -/
abbrev VType.F64 : VType := 3
/-- Constant `Str`. -/
abbrev VType.Str : VType := 4
/-- Constant `Bool`. -/
abbrev VType.Bool : VType := 5
/-- Constant `Array`. -/
abbrev VType.Array : VType := 6
/-- Constant `Object`. -/
abbrev VType.Object : VType := 7
/-- Constant `UDT`, the user-defined type. -/
abbrev VType.UDT : VType := 8

/-- A `float64`, represented by its IEEE-754 bit pattern; the package only
stores such values. -/
structure Float64 where
  bits : Nat
  deriving DecidableEq, Repr

/-- A non-nil dynamic value held in an `interface{}`.  The package never looks
inside it, so it is represented by a token. -/
structure Dyn where
  token : Nat
  deriving DecidableEq, Repr

/-- The struct `Value`, field by field. -/
structure Value where
  vType : VType
  i : Int
  u : Nat
  f : Float64
  s : String
  b : Bool
  udt : Option Dyn
  arr : Option (List (Option Value))
  obj : Option (List (String × Option Value))

/-- The error values built by `fmt.Errorf`: the format used and its arguments. -/
inductive Error where
  /-- The format `"err: bad vtype, want %s, but got %s"` applied to `want`, `got`. -/
  | badVType (want got : VType)
  /-- The format `"err: bad index, got %d"` applied to `index`. -/
  | badIndex (index : Int)
  deriving DecidableEq, Repr

/-- How a method call ends: it returns `val` leaving the receiver as `node`, or
it panics at run time with the receiver as `node` at that moment. -/
inductive Outcome (α : Type) where
  | ret (node : Value) (val : α)
  | panic (node : Value)

/-- The receiver after the call, however the call ended. -/
def Outcome.node {α : Type} : Outcome α → Value
  | .ret n _ => n
  | .panic n => n

/-- The returned value, when the call returned. -/
def Outcome.val? {α : Type} : Outcome α → Option α
  | .ret _ x => some x
  | .panic _ => none

/-- Whether the call panicked. -/
def Outcome.panicked {α : Type} : Outcome α → Bool
  | .ret _ _ => false
  | .panic _ => true

/-! ## Slices and maps -/

/-- The builtin `len` on a slice: the nil slice has length 0. -/
def len {α : Type} (s : Option (List α)) : Nat :=
  match s with
  | none => 0
  | some l => l.length

/-- Arithmetic on the type `int` of a 64-bit platform wraps around: the result is
the representative of `x` modulo `2^64` in the range from `-2^63` to `2^63 - 1`. -/
def wrapInt (x : Int) : Int :=
  (x + 9223372036854775808) % 18446744073709551616 - 9223372036854775808

/-- The size in bytes of a pointer, the element type of `[]*Value`, on a 64-bit
platform. -/
def ptrSize : Int := 8

/-- The bound `maxAlloc` of the Go run-time on the size in bytes of one
allocation: `2^48` on 64-bit Linux. -/
def maxAlloc : Int := 281474976710656

/-- The builtin `make([]*T, n)`: `none` where the run-time panics with
`makeslice: len out of range`, that is when `n` is negative or `n` pointers
exceed `maxAlloc`; otherwise a slice of `n` nil pointers. -/
def make {α : Type} (n : Int) : Option (Option (List (Option α))) :=
  if n < 0 ∨ maxAlloc < ptrSize * n then none
  else some (some (List.replicate n.toNat none))

/-- The builtin `copy(dst, src)`: the first `min (len dst) (len src)` elements of
`dst` are overwritten by those of `src`; the length of `dst` is kept. -/
def copy {α : Type} (dst src : Option (List α)) : Option (List α) :=
  match dst, src with
  | none, _ => none
  | some d, none => some d
  | some d, some s => some (s.take d.length ++ d.drop s.length)

/-- The element of a slice at index `j`, if `j` is in range. -/
def at? {α : Type} (s : Option (List α)) (j : Nat) : Option α :=
  match s with
  | none => none
  | some l => l[j]?

/-- The index assignment `s[i] = x`: `none` when `i` is out of range, where Go
panics; otherwise the slice with slot `i` overwritten. -/
def setIndex {α : Type} (s : Option (List α)) (i : Int) (x : α) :
    Option (Option (List α)) :=
  match s with
  | none => none
  | some l => if 0 ≤ i ∧ i < (l.length : Int) then some (some (l.set i.toNat x)) else none

/-- Insertion into an association list with unique keys: the entry of `k` is
replaced where it stands, or added. -/
def assocSet {β : Type} (m : List (String × β)) (k : String) (x : β) : List (String × β) :=
  match m with
  | [] => [(k, x)]
  | (k', y) :: rest => if k' = k then (k, x) :: rest else (k', y) :: assocSet rest k x

/-- The map assignment `m[k] = x`: `none` when `m` is the nil map, where Go
panics. -/
def mapSet {β : Type} (m : Option (List (String × β))) (k : String) (x : β) :
    Option (Option (List (String × β))) :=
  match m with
  | none => none
  | some l => some (some (assocSet l k x))

/-- The map read `m[k]` in its two-result form: the value stored under `k`. -/
def mapGet? {β : Type} (m : Option (List (String × β))) (k : String) : Option β :=
  match m with
  | none => none
  | some l => l.lookup k

/-- The builtin `len` on a map: its number of entries; the nil map has none. -/
def mapLen {β : Type} (m : Option (List (String × β))) : Nat :=
  match m with
  | none => 0
  | some l => l.length

/-- The keys of a map, in the order of the association list. -/
def mapKeys {β : Type} (m : Option (List (String × β))) : List String :=
  match m with
  | none => []
  | some l => l.map Prod.fst

/-- A Go map holds each key once: the association lists that stand for maps are
those whose keys are pairwise distinct. -/
def mapWF {β : Type} (m : Option (List (String × β))) : Prop :=
  (mapKeys m).Nodup

/-! ## Operations of `value.go` -/

/-- `NewUndefined` returns `&Value{}`: every field has its zero value. -/
def NewUndefined : Value :=
  { vType := VType.Undefined, i := 0, u := 0, f := ⟨0⟩, s := "", b := false,
    udt := none, arr := none, obj := none }

/-- `New(vt)` returns `&Value{vType: vt}`. -/
def New (vt : VType) : Value :=
  { vType := vt, i := 0, u := 0, f := ⟨0⟩, s := "", b := false,
    udt := none, arr := none, obj := none }

/-- Method `valid`: `v.vType != Undefined`. -/
def Value.valid (v : Value) : Bool :=
  v.vType != VType.Undefined

/-- Method `release`: a `switch` on `v.vType` clearing `udt`, `arr` or `obj`. -/
def Value.release (v : Value) : Value :=
  if v.vType = VType.UDT then { v with udt := none }
  else if v.vType = VType.Array then { v with arr := none }
  else if v.vType = VType.Object then { v with obj := none }
  else v

/-- Method `Type`: the value type. -/
def Value.Type (v : Value) : VType :=
  v.vType

/-- Method `SetInt`. -/
def Value.SetInt (v : Value) (i : Int) : Value × Option Error :=
  if v.vType ≠ VType.Undefined ∧ v.vType ≠ VType.I64 then
    (v, some (Error.badVType VType.I64 v.vType))
  else
    ({ v with vType := VType.I64, i := i }, none)

/-- Method `SetUint`. -/
def Value.SetUint (v : Value) (u : Nat) : Value × Option Error :=
  if v.vType ≠ VType.Undefined ∧ v.vType ≠ VType.U64 then
    (v, some (Error.badVType VType.U64 v.vType))
  else
    ({ v with vType := VType.U64, u := u }, none)

/-- Method `SetFloat`. -/
def Value.SetFloat (v : Value) (f : Float64) : Value × Option Error :=
  if v.vType ≠ VType.Undefined ∧ v.vType ≠ VType.F64 then
    (v, some (Error.badVType VType.F64 v.vType))
  else
    ({ v with vType := VType.F64, f := f }, none)

/-- Method `SetString`. -/
def Value.SetString (v : Value) (s : String) : Value × Option Error :=
  if v.vType ≠ VType.Undefined ∧ v.vType ≠ VType.Str then
    (v, some (Error.badVType VType.Str v.vType))
  else
    ({ v with vType := VType.Str, s := s }, none)

/-- Method `SetBool`. -/
def Value.SetBool (v : Value) (b : Bool) : Value × Option Error :=
  if v.vType ≠ VType.Undefined ∧ v.vType ≠ VType.Bool then
    (v, some (Error.badVType VType.Bool v.vType))
  else
    ({ v with vType := VType.Bool, b := b }, none)

/-- Method `SetUdt`: the parameter `vType` is not used by the body. -/
def Value.SetUdt (v : Value) (_vType : Int) (udt : Option Dyn) : Value × Option Error :=
  if v.vType ≠ VType.Undefined ∧ v.vType ≠ VType.UDT then
    (v, some (Error.badVType VType.UDT v.vType))
  else
    ({ v with vType := VType.UDT, udt := udt }, none)

/-- Method `SetArray`: the two guards, the growth under `len(v.arr) < i`, where
`make([]*Value, i+1)` panics before `v.arr` is assigned when the wrapped `i+1`
is out of range, and the write `v.arr[i] = tmp`, which panics when `i` is out
of range. -/
def Value.SetArray (v : Value) (i : Int) : Outcome (Option Value × Option Error) :=
  if i < 0 then
    .ret v (none, some (Error.badIndex i))
  else if v.vType ≠ VType.Undefined ∧ v.vType ≠ VType.Array then
    .ret v (none, some (Error.badVType VType.Array v.vType))
  else
    let grown : Option Value :=
      if (len v.arr : Int) < i then
        let old := v.arr
        match make (wrapInt (i + 1)) with
        | none => none
        | some a => some { v with arr := copy a old }
      else some v
    match grown with
    | none => .panic v
    | some v1 =>
      let tmp := NewUndefined
      match setIndex v1.arr i (some tmp) with
      | none => .panic v1
      | some a => .ret { v1 with arr := a } (some tmp, none)

/-- Method `SetObject`: the guard has an empty body, then the kind is set, the
map allocated if nil, and `v.obj[key] = tmp` stored. -/
def Value.SetObject (v : Value) (key : String) : Outcome (Option Value × Option Error) :=
  let v0 : Value :=
    if v.vType ≠ VType.Undefined ∧ v.vType ≠ VType.Object then v else v
  let v1 : Value := { v0 with vType := VType.Object }
  let v2 : Value :=
    match v1.obj with
    | none => { v1 with obj := some [] }
    | some _ => v1
  let tmp := NewUndefined
  match mapSet v2.obj key (some tmp) with
  | none => .panic v2
  | some m => .ret { v2 with obj := m } (some tmp, none)

/-- The effect on a parent of a write through the child pointer that
`SetObject key` returned: the entry of `key`, when the map has one, holds the
child as it is after the write, `c`.  Children are values here, so a write
through the pointer is replayed on the parent. -/
def Value.withChild (v : Value) (key : String) (c : Value) : Value :=
  { v with obj := v.obj.map fun l =>
      if (l.lookup key).isSome then assocSet l key (some c) else l }

/-! ## Auxiliary facts on slices and on the three ways `SetArray` ends -/

theorem len_some {α : Type} (l : List α) : len (some l) = l.length := rfl

theorem len_getD {α : Type} (s : Option (List α)) : (s.getD []).length = len s := by
  cases s <;> simp [len]

theorem wrapInt_of_range (x : Int) (h0 : -9223372036854775808 ≤ x)
    (h1 : x < 9223372036854775808) : wrapInt x = x := by
  unfold wrapInt
  omega

theorem make_of_bound {α : Type} (m : Nat) (h : ptrSize * (m : Int) ≤ maxAlloc) :
    (make (m : Int) : Option (Option (List (Option α))))
      = some (some (List.replicate m none)) := by
  have hn : ¬ ((m : Int) < 0 ∨ maxAlloc < ptrSize * (m : Int)) := by omega
  simp [make, hn]

theorem make_eq_some {α : Type} (n : Int) (a : Option (List (Option α)))
    (h : make n = some a) :
    0 ≤ n ∧ ptrSize * n ≤ maxAlloc ∧ a = some (List.replicate n.toNat none) := by
  unfold make at h
  split at h
  · simp at h
  · rename_i hn
    simp only [Option.some.injEq] at h
    exact ⟨by omega, by omega, h.symm⟩

theorem copy_replicate_of_le {α : Type} (old : Option (List (Option α))) (m : Nat)
    (h : len old ≤ m) :
    copy (some (List.replicate m none)) old
      = some (old.getD [] ++ List.replicate (m - len old) none) := by
  cases old with
  | none => simp [copy, len]
  | some l =>
    simp only [len] at h
    simp [copy, len, List.take_of_length_le h]

theorem len_copy_some {α : Type} (d : List α) (s : Option (List α)) :
    len (copy (some d) s) = d.length := by
  cases s with
  | none => simp [copy, len]
  | some l => simp [copy, len]; omega

theorem SetArray_neg (v : Value) (i : Int) (h : i < 0) :
    v.SetArray i = .ret v (none, some (Error.badIndex i)) := by
  unfold Value.SetArray
  rw [if_pos h]

theorem SetArray_badVType (v : Value) (i : Int) (h0 : 0 ≤ i)
    (h1 : v.vType ≠ VType.Undefined) (h2 : v.vType ≠ VType.Array) :
    v.SetArray i = .ret v (none, some (Error.badVType VType.Array v.vType)) := by
  have : ¬ i < 0 := not_lt.mpr h0
  unfold Value.SetArray
  rw [if_neg this, if_pos ⟨h1, h2⟩]

theorem wrapInt_succ (k : Nat) (hb : ptrSize * ((k : Int) + 1) ≤ maxAlloc) :
    wrapInt ((k : Int) + 1) = ((k + 1 : Nat) : Int) := by
  have h1 : (k : Int) + 1 < 9223372036854775808 := by
    simp only [ptrSize, maxAlloc] at hb
    omega
  rw [wrapInt_of_range _ (by omega) h1]
  push_cast
  rfl

theorem SetArray_grow (v : Value) (k : Nat)
    (hk : v.vType = VType.Undefined ∨ v.vType = VType.Array) (hlt : len v.arr < k)
    (hb : ptrSize * ((k : Int) + 1) ≤ maxAlloc) :
    v.SetArray (k : Int)
      = .ret { v with arr := some ((v.arr.getD [] ++ List.replicate (k + 1 - len v.arr) none).set k
                  (some NewUndefined)) }
          (some NewUndefined, none) := by
  have hg : ¬ (v.vType ≠ VType.Undefined ∧ v.vType ≠ VType.Array) := by
    rcases hk with h | h <;> simp [h]
  have hc := copy_replicate_of_le v.arr (k + 1) (by omega)
  have hlen : k < (v.arr.getD [] ++ List.replicate (k + 1 - len v.arr) (none : Option Value)).length := by
    rw [List.length_append, List.length_replicate, len_getD]; omega
  have hb2 : ptrSize * (((k + 1 : Nat) : Int)) ≤ maxAlloc := by
    push_cast
    exact hb
  have hm : (make (wrapInt ((k : Int) + 1)) : Option (Option (List (Option Value))))
      = some (some (List.replicate (k + 1) none)) := by
    rw [wrapInt_succ k hb]
    exact make_of_bound (k + 1) hb2
  have hlt2 : (len v.arr : Int) < (k : Int) := by exact_mod_cast hlt
  have hin : 0 ≤ (k : Int) ∧ (k : Int) <
      ((v.arr.getD [] ++ List.replicate (k + 1 - len v.arr) (none : Option Value)).length : Int) :=
    ⟨by omega, by exact_mod_cast hlen⟩
  have hneg : ¬ (k : Int) < 0 := by omega
  unfold Value.SetArray
  rw [if_neg hneg, if_neg hg, if_pos hlt2]
  generalize make (wrapInt ((k : Int) + 1)) = m at hm ⊢
  subst hm
  dsimp only
  rw [hc]
  simp only [setIndex]
  rw [if_pos hin]
  rfl
theorem SetArray_grow_bound (v : Value) (k : Nat)
    (hk : v.vType = VType.Undefined ∨ v.vType = VType.Array) (hlt : len v.arr < k)
    (hret : (v.SetArray (k : Int)).panicked = false) :
    ptrSize * ((k : Int) + 1) ≤ maxAlloc := by
  have hg : ¬ (v.vType ≠ VType.Undefined ∧ v.vType ≠ VType.Array) := by
    rcases hk with h | h <;> simp [h]
  have hlt2 : (len v.arr : Int) < (k : Int) := by exact_mod_cast hlt
  have hneg : ¬ (k : Int) < 0 := by omega
  unfold Value.SetArray at hret
  rw [if_neg hneg, if_neg hg, if_pos hlt2] at hret
  generalize hn : wrapInt ((k : Int) + 1) = n at hret
  generalize hm : (make n : Option (Option (List (Option Value)))) = m at hret
  cases m with
  | none => simp [Outcome.panicked] at hret
  | some a =>
    obtain ⟨h0, hle, rfl⟩ := make_eq_some _ _ hm
    dsimp only at hret
    have hlen := len_copy_some (List.replicate n.toNat (none : Option Value)) v.arr
    generalize copy (some (List.replicate n.toNat (none : Option Value))) v.arr = c at hret hlen
    cases c with
    | none => simp [setIndex, Outcome.panicked] at hret
    | some l =>
      simp only [len_some, List.length_replicate] at hlen
      simp only [setIndex] at hret
      by_cases hin : 0 ≤ (k : Int) ∧ (k : Int) < (l.length : Int)
      · have h1 : (k : Int) < n := by omega
        have h2 : n = (k : Int) + 1 := by
          simp only [ptrSize, maxAlloc] at hle
          unfold wrapInt at hn
          omega
        rw [h2] at hle
        exact hle
      · rw [if_neg hin] at hret
        simp [Outcome.panicked] at hret
theorem SetArray_bound_of_ret (v w : Value) (k : Nat) (r : Option Value × Option Error)
    (hk : v.vType = VType.Undefined ∨ v.vType = VType.Array) (hlt : len v.arr < k)
    (h : v.SetArray (k : Int) = Outcome.ret w r) :
    ptrSize * ((k : Int) + 1) ≤ maxAlloc :=
  SetArray_grow_bound v k hk hlt (by rw [h]; rfl)

theorem SetArray_inplace (v : Value) (k : Nat)
    (hk : v.vType = VType.Undefined ∨ v.vType = VType.Array) (hgt : k < len v.arr) :
    v.SetArray (k : Int)
      = .ret { v with arr := some ((v.arr.getD []).set k (some NewUndefined)) }
          (some NewUndefined, none) := by
  have hg : ¬ (v.vType ≠ VType.Undefined ∧ v.vType ≠ VType.Array) := by
    rcases hk with h | h <;> simp [h]
  unfold Value.SetArray
  rw [if_neg (by omega), if_neg hg]
  have : ¬ ((len v.arr : Int) < (k : Int)) := by omega
  rw [if_neg this]
  dsimp only
  cases ha : v.arr with
  | none => simp [ha, len] at hgt
  | some l =>
    simp only [ha, len] at hgt
    simp only [setIndex]
    rw [if_pos ⟨by omega, by exact_mod_cast hgt⟩]
    simp

theorem SetArray_panic (v : Value) (k : Nat)
    (hk : v.vType = VType.Undefined ∨ v.vType = VType.Array) (heq : len v.arr = k) :
    v.SetArray (k : Int) = .panic v := by
  have hg : ¬ (v.vType ≠ VType.Undefined ∧ v.vType ≠ VType.Array) := by
    rcases hk with h | h <;> simp [h]
  unfold Value.SetArray
  rw [if_neg (by omega), if_neg hg]
  have : ¬ ((len v.arr : Int) < (k : Int)) := by omega
  rw [if_neg this]
  dsimp only
  cases ha : v.arr with
  | none => simp [setIndex]
  | some l =>
    simp only [ha, len] at heq
    simp only [setIndex]
    rw [if_neg (by omega)]

/-! ## Auxiliary facts on maps and on `SetObject` -/

theorem lookup_assocSet_self {β : Type} (l : List (String × β)) (k : String) (x : β) :
    (assocSet l k x).lookup k = some x := by
  induction l with
  | nil => simp [assocSet, List.lookup]
  | cons e rest ih =>
    obtain ⟨k1, y⟩ := e
    by_cases h : k1 = k
    · simp [assocSet, h, List.lookup]
    · have hb : (k == k1) = false := by simpa using fun e => h e.symm
      simp [assocSet, h, List.lookup, hb, ih]

theorem lookup_assocSet_ne {β : Type} (l : List (String × β)) (k k2 : String) (x : β)
    (hne : k2 ≠ k) : (assocSet l k x).lookup k2 = l.lookup k2 := by
  induction l with
  | nil =>
    have hb : (k2 == k) = false := by simpa using hne
    simp [assocSet, List.lookup, hb]
  | cons e rest ih =>
    obtain ⟨k1, y⟩ := e
    by_cases h : k1 = k
    · subst h
      have hb : (k2 == k1) = false := by simpa using hne
      simp [assocSet, List.lookup, hb]
    · by_cases h2 : k2 = k1
      · simp [assocSet, h, List.lookup, h2]
      · have hb : (k2 == k1) = false := by simpa using h2
        simp [assocSet, h, List.lookup, hb, ih]

theorem assocSet_assocSet {β : Type} (l : List (String × β)) (k : String) (x y : β) :
    assocSet (assocSet l k x) k y = assocSet l k y := by
  induction l with
  | nil => simp [assocSet]
  | cons e rest ih =>
    obtain ⟨k1, z⟩ := e
    by_cases h : k1 = k
    · simp [assocSet, h]
    · simp [assocSet, h, ih]

theorem keys_assocSet {β : Type} (l : List (String × β)) (k : String) (x : β) :
    (assocSet l k x).map Prod.fst
      = if k ∈ l.map Prod.fst then l.map Prod.fst else l.map Prod.fst ++ [k] := by
  induction l with
  | nil => simp [assocSet]
  | cons e rest ih =>
    obtain ⟨k1, z⟩ := e
    by_cases h : k1 = k
    · simp [assocSet, h]
    · have h2 : ¬ k = k1 := fun e => h e.symm
      simp only [assocSet, h, if_false, List.map_cons, ih, List.mem_cons, h2, false_or]
      split <;> simp

theorem mem_keys_assocSet {β : Type} (l : List (String × β)) (k : String) (x : β) :
    k ∈ (assocSet l k x).map Prod.fst := by
  rw [keys_assocSet]
  split
  · assumption
  · simp

theorem nodup_keys_assocSet {β : Type} (l : List (String × β)) (k : String) (x : β)
    (h : (l.map Prod.fst).Nodup) : ((assocSet l k x).map Prod.fst).Nodup := by
  rw [keys_assocSet]
  split
  · exact h
  · rename_i hk
    exact List.Nodup.append h (List.nodup_singleton k) (by simpa using hk)

theorem SetObject_eq (v : Value) (key : String) :
    v.SetObject key
      = Outcome.ret { v with vType := VType.Object,
                             obj := some (assocSet (v.obj.getD []) key (some NewUndefined)) }
          (some NewUndefined, none) := by
  cases hv : v.obj <;> simp [Value.SetObject, mapSet, hv]

/-! ## The type tag and the scalar setters -/

/-- C1 (kind lock-in), evaluated where the code departs from it: a node locked to
`I64` by `SetInt 5` is turned into an `Object` node by `SetObject "a"`, which
returns a child and a nil error instead of failing. -/
theorem C1_SetObject_overrides_locked_kind :
    (NewUndefined.SetInt 5).1.Type = VType.I64 ∧
    (NewUndefined.SetInt 5).1.Type ≠ VType.Undefined ∧
    ((NewUndefined.SetInt 5).1.SetObject "a").node.Type = VType.Object ∧
    ((NewUndefined.SetInt 5).1.SetObject "a").val? = some (some NewUndefined, none) :=
  ⟨by decide, by decide, by decide, rfl⟩

/-- C2: on a node whose kind is `Undefined` or already the kind of the setter,
each scalar setter returns a nil error, leaves `Type()` equal to its kind, stores
its argument in the matching field and changes no other field; a second call
with the same setter keeps the second value. -/
theorem C2_scalar_setters_succeed (v : Value) :
    (∀ x : Int, v.vType = VType.Undefined ∨ v.vType = VType.I64 →
      v.SetInt x = ({ v with vType := VType.I64, i := x }, none) ∧
      (v.SetInt x).1.Type = VType.I64 ∧ (v.SetInt x).1.i = x ∧
      ∀ y : Int, (v.SetInt x).1.SetInt y = ({ v with vType := VType.I64, i := y }, none)) ∧
    (∀ x : Nat, v.vType = VType.Undefined ∨ v.vType = VType.U64 →
      v.SetUint x = ({ v with vType := VType.U64, u := x }, none) ∧
      (v.SetUint x).1.Type = VType.U64 ∧ (v.SetUint x).1.u = x ∧
      ∀ y : Nat, (v.SetUint x).1.SetUint y = ({ v with vType := VType.U64, u := y }, none)) ∧
    (∀ x : Float64, v.vType = VType.Undefined ∨ v.vType = VType.F64 →
      v.SetFloat x = ({ v with vType := VType.F64, f := x }, none) ∧
      (v.SetFloat x).1.Type = VType.F64 ∧ (v.SetFloat x).1.f = x ∧
      ∀ y : Float64,
        (v.SetFloat x).1.SetFloat y = ({ v with vType := VType.F64, f := y }, none)) ∧
    (∀ x : String, v.vType = VType.Undefined ∨ v.vType = VType.Str →
      v.SetString x = ({ v with vType := VType.Str, s := x }, none) ∧
      (v.SetString x).1.Type = VType.Str ∧ (v.SetString x).1.s = x ∧
      ∀ y : String,
        (v.SetString x).1.SetString y = ({ v with vType := VType.Str, s := y }, none)) ∧
    (∀ x : Bool, v.vType = VType.Undefined ∨ v.vType = VType.Bool →
      v.SetBool x = ({ v with vType := VType.Bool, b := x }, none) ∧
      (v.SetBool x).1.Type = VType.Bool ∧ (v.SetBool x).1.b = x ∧
      ∀ y : Bool, (v.SetBool x).1.SetBool y = ({ v with vType := VType.Bool, b := y }, none)) := by
  refine ⟨?_, ?_, ?_, ?_, ?_⟩ <;> intro x hk
  · have hg : ¬ (v.vType ≠ VType.Undefined ∧ v.vType ≠ VType.I64) := by
      rcases hk with h | h <;> simp [h]
    simp [Value.SetInt, Value.Type, hg]
  · have hg : ¬ (v.vType ≠ VType.Undefined ∧ v.vType ≠ VType.U64) := by
      rcases hk with h | h <;> simp [h]
    simp [Value.SetUint, Value.Type, hg]
  · have hg : ¬ (v.vType ≠ VType.Undefined ∧ v.vType ≠ VType.F64) := by
      rcases hk with h | h <;> simp [h]
    simp [Value.SetFloat, Value.Type, hg]
  · have hg : ¬ (v.vType ≠ VType.Undefined ∧ v.vType ≠ VType.Str) := by
      rcases hk with h | h <;> simp [h]
    simp [Value.SetString, Value.Type, hg]
  · have hg : ¬ (v.vType ≠ VType.Undefined ∧ v.vType ≠ VType.Bool) := by
      rcases hk with h | h <;> simp [h]
    simp [Value.SetBool, Value.Type, hg]

/-- C2 at concrete nodes: `SetInt 5` then `SetInt 7` on a fresh node, and the
other four setters on a fresh node. -/
theorem C2_scalar_setters_succeed_witness :
    (NewUndefined.SetInt 5 = ({ NewUndefined with vType := VType.I64, i := 5 }, none) ∧
      (NewUndefined.SetInt 5).1.Type = VType.I64 ∧ (NewUndefined.SetInt 5).1.i = 5 ∧
      ∀ y : Int, (NewUndefined.SetInt 5).1.SetInt y
        = ({ NewUndefined with vType := VType.I64, i := y }, none)) ∧
    (NewUndefined.SetUint 6).1.u = 6 ∧
    (NewUndefined.SetFloat ⟨1⟩).1.f = ⟨1⟩ ∧
    (NewUndefined.SetString "x").1.s = "x" ∧
    ((New VType.Bool).SetBool true).1.b = true :=
  ⟨(C2_scalar_setters_succeed NewUndefined).1 5 (Or.inl rfl),
   ((C2_scalar_setters_succeed NewUndefined).2.1 6 (Or.inl rfl)).2.2.1,
   ((C2_scalar_setters_succeed NewUndefined).2.2.1 ⟨1⟩ (Or.inl rfl)).2.2.1,
   ((C2_scalar_setters_succeed NewUndefined).2.2.2.1 "x" (Or.inl rfl)).2.2.1,
   ((C2_scalar_setters_succeed (New VType.Bool)).2.2.2.2 true (Or.inr rfl)).2.2.1⟩

/-- C3: on a node whose kind is a concrete kind different from the kind of the
setter, each of the six setters returns the error built from the expected kind
and the actual kind, and leaves the node exactly as it was. -/
theorem C3_setters_reject_other_kind (v : Value) (hdef : v.vType ≠ VType.Undefined) :
    (∀ x : Int, v.vType ≠ VType.I64 →
      v.SetInt x = (v, some (Error.badVType VType.I64 v.vType))) ∧
    (∀ x : Nat, v.vType ≠ VType.U64 →
      v.SetUint x = (v, some (Error.badVType VType.U64 v.vType))) ∧
    (∀ x : Float64, v.vType ≠ VType.F64 →
      v.SetFloat x = (v, some (Error.badVType VType.F64 v.vType))) ∧
    (∀ x : String, v.vType ≠ VType.Str →
      v.SetString x = (v, some (Error.badVType VType.Str v.vType))) ∧
    (∀ x : Bool, v.vType ≠ VType.Bool →
      v.SetBool x = (v, some (Error.badVType VType.Bool v.vType))) ∧
    (∀ (t : Int) (p : Option Dyn), v.vType ≠ VType.UDT →
      v.SetUdt t p = (v, some (Error.badVType VType.UDT v.vType))) := by
  refine ⟨?_, ?_, ?_, ?_, ?_, ?_⟩
  · intro x hne; simp [Value.SetInt, hdef, hne]
  · intro x hne; simp [Value.SetUint, hdef, hne]
  · intro x hne; simp [Value.SetFloat, hdef, hne]
  · intro x hne; simp [Value.SetString, hdef, hne]
  · intro x hne; simp [Value.SetBool, hdef, hne]
  · intro t p hne; simp [Value.SetUdt, hdef, hne]

/-- C3 at a concrete node: after `SetInt 5` on a fresh node, `SetString "y"`
fails with the error for expected `Str` and actual `I64`, and the node still
reads 5 under `I64`; `SetUdt` fails likewise. -/
theorem C3_setters_reject_other_kind_witness :
    (NewUndefined.SetInt 5).1.SetString "y"
        = ((NewUndefined.SetInt 5).1,
            some (Error.badVType VType.Str (NewUndefined.SetInt 5).1.vType)) ∧
    (NewUndefined.SetInt 5).1.vType = VType.I64 ∧
    ((NewUndefined.SetInt 5).1.SetString "y").1.i = 5 ∧
    (NewUndefined.SetInt 5).1.SetUdt 3 (some ⟨9⟩)
        = ((NewUndefined.SetInt 5).1,
            some (Error.badVType VType.UDT (NewUndefined.SetInt 5).1.vType)) :=
  ⟨(C3_setters_reject_other_kind (NewUndefined.SetInt 5).1 (by decide)).2.2.2.1 "y" (by decide),
   by decide, by decide,
   (C3_setters_reject_other_kind (NewUndefined.SetInt 5).1 (by decide)).2.2.2.2.2 3 (some ⟨9⟩)
     (by decide)⟩

/-! ## The array accessor -/

/-- C4 (`SetArray` sets the kind to `Array`), evaluated where the code departs
from it: `SetArray 1` on a fresh node returns a child and a nil error, and the
kind of the node is still `Undefined`; the call `SetArray 0` of the example
panics. -/
theorem C4_SetArray_leaves_kind_Undefined :
    NewUndefined.Type = VType.Undefined ∧
    (NewUndefined.SetArray 1).val? = some (some NewUndefined, none) ∧
    (NewUndefined.SetArray 1).node.Type = VType.Undefined ∧
    (NewUndefined.SetArray 1).node.valid = false ∧
    (NewUndefined.SetArray 0).panicked = true :=
  ⟨by decide, rfl, by decide, by decide, by decide⟩

/-- C5 (`SetArray n` on a sequence of length `n` extends it by one slot),
evaluated where the code departs from it: on a fresh node `SetArray 0` panics
and leaves the sequence nil, and after `SetArray 1` has made the length 2,
`SetArray 2` panics and the length is still 2. -/
theorem C5_SetArray_at_length_panics :
    len NewUndefined.arr = 0 ∧
    NewUndefined.SetArray 0 = Outcome.panic NewUndefined ∧
    len (NewUndefined.SetArray 1).node.arr = 2 ∧
    ((NewUndefined.SetArray 1).node.SetArray 2).panicked = true ∧
    len ((NewUndefined.SetArray 1).node.SetArray 2).node.arr = 2 :=
  ⟨by decide, rfl, by decide, by decide, by decide⟩

/-- C6 (no operation panics), evaluated where the code departs from it: on the
node returned by `New(Array)` the call `SetArray 0` reaches the slice write with
an index that is out of range, and panics. -/
theorem C6_SetArray_panics_on_New_Array :
    (New VType.Array).SetArray 0 = Outcome.panic (New VType.Array) ∧
    setIndex (New VType.Array).arr 0 (some NewUndefined) = none :=
  ⟨rfl, rfl⟩

/-- C7 as stated fails: after `SetArray 5` on a fresh node, which returns
normally, index 0 lies in the gap and holds the nil pointer, not a node. -/
theorem C7_gap_slot_is_nil_counterexample :
    NewUndefined.vType = VType.Undefined ∧ len NewUndefined.arr = 0 ∧
    (NewUndefined.SetArray 5).panicked = false ∧
    len (NewUndefined.SetArray 5).node.arr = 6 ∧
    at? (NewUndefined.SetArray 5).node.arr 0 = some none ∧
    ¬ ∃ c : Value, at? (NewUndefined.SetArray 5).node.arr 0 = some (some c) ∧
        c.vType = VType.Undefined := by
  refine ⟨by decide, by decide, by decide, by decide, rfl, ?_⟩
  rintro ⟨c, hc, -⟩
  have h0 : at? (NewUndefined.SetArray 5).node.arr 0 = some none := rfl
  rw [h0] at hc
  simp at hc

/-- C7, amended: on a node of kind `Undefined` or `Array` with a sequence of
length `n`, for every index `i > n`, when `SetArray i` has returned the sequence
has length `i + 1` and every index `j` with `n ≤ j < i` holds the nil pointer. -/
theorem C7_gap_slots_are_nil (v w : Value) (i : Int) (r : Option Value × Option Error)
    (hk : v.vType = VType.Undefined ∨ v.vType = VType.Array)
    (hi : (len v.arr : Int) < i)
    (hret : v.SetArray i = Outcome.ret w r) :
    (len w.arr : Int) = i + 1 ∧
    ∀ j : Nat, len v.arr ≤ j → (j : Int) < i → at? w.arr j = some none := by
  obtain ⟨k, rfl⟩ := Int.eq_ofNat_of_zero_le (by omega : 0 ≤ i)
  have hlt : len v.arr < k := by exact_mod_cast hi
  have hb := SetArray_bound_of_ret v w k r hk hlt hret
  rw [SetArray_grow v k hk hlt hb] at hret
  simp only [Outcome.ret.injEq] at hret
  obtain ⟨rfl, -⟩ := hret
  refine ⟨?_, ?_⟩
  · simp only [len_some, List.length_set, List.length_append, List.length_replicate,
      len_getD]
    omega
  · intro j hnj hjk
    have hjk2 : j < k := by exact_mod_cast hjk
    have hne : k ≠ j := by omega
    simp only [at?]
    rw [List.getElem?_set_ne hne, List.getElem?_append_right (by rw [len_getD]; exact hnj),
      List.getElem?_replicate]
    rw [if_pos (by rw [len_getD]; omega)]

/-- C7, amended, at a concrete node: `SetArray 5` on a fresh node returns, the
sequence then has length 6 and index 3 holds the nil pointer. -/
theorem C7_gap_slots_are_nil_witness :
    NewUndefined.SetArray 5
      = Outcome.ret (NewUndefined.SetArray 5).node (some NewUndefined, none) ∧
    (len (NewUndefined.SetArray 5).node.arr : Int) = 5 + 1 ∧
    at? (NewUndefined.SetArray 5).node.arr 3 = some none :=
  ⟨rfl,
   (C7_gap_slots_are_nil NewUndefined (NewUndefined.SetArray 5).node 5
      (some NewUndefined, none) (Or.inl rfl) (by decide) rfl).1,
   (C7_gap_slots_are_nil NewUndefined (NewUndefined.SetArray 5).node 5
      (some NewUndefined, none) (Or.inl rfl) (by decide) rfl).2 3 (by decide) (by decide)⟩

/-- C8: when `SetArray i` returns a nil error on a node whose sequence has
length `n`, the returned child is a fresh `Undefined` node with every field at
its zero value, it is what index `i` holds afterwards, every index `j < n` other
than `i` holds what it held before, and the length is unchanged when `i < n`. -/
theorem C8_SetArray_child_and_frame (v w : Value) (i : Int) (c : Option Value)
    (h : v.SetArray i = Outcome.ret w (c, none)) :
    c = some NewUndefined ∧
    at? w.arr i.toNat = some c ∧
    (∀ j : Nat, j < len v.arr → (j : Int) ≠ i → at? w.arr j = at? v.arr j) ∧
    (i < (len v.arr : Int) → len w.arr = len v.arr) := by
  by_cases hneg : i < 0
  · rw [SetArray_neg v i hneg] at h
    simp at h
  by_cases hbad : v.vType ≠ VType.Undefined ∧ v.vType ≠ VType.Array
  · rw [SetArray_badVType v i (by omega) hbad.1 hbad.2] at h
    simp at h
  have hk : v.vType = VType.Undefined ∨ v.vType = VType.Array := by
    by_contra hc
    exact hbad ⟨fun h0 => hc (Or.inl h0), fun h1 => hc (Or.inr h1)⟩
  obtain ⟨k, rfl⟩ := Int.eq_ofNat_of_zero_le (by omega : 0 ≤ i)
  rcases lt_trichotomy (len v.arr) k with hlt | heq | hgt
  · rw [SetArray_grow v k hk hlt (SetArray_bound_of_ret v w k (c, none) hk hlt h)] at h
    simp only [Outcome.ret.injEq, Prod.mk.injEq] at h
    obtain ⟨rfl, rfl, -⟩ := h
    refine ⟨rfl, ?_, ?_, ?_⟩
    · simp only [at?, Int.toNat_ofNat]
      rw [List.getElem?_set_self (by simp [len_getD]; omega)]
    · intro j hj hne
      have hne2 : k ≠ j := fun e => hne (by rw [e])
      simp only [at?]
      rw [List.getElem?_set_ne hne2, List.getElem?_append_left (by rw [len_getD]; exact hj)]
      cases hv : v.arr <;> simp
    · intro hik
      omega
  · rw [SetArray_panic v k hk heq] at h
    simp at h
  · rw [SetArray_inplace v k hk hgt] at h
    simp only [Outcome.ret.injEq, Prod.mk.injEq] at h
    obtain ⟨rfl, rfl, -⟩ := h
    refine ⟨rfl, ?_, ?_, ?_⟩
    · simp only [at?, Int.toNat_ofNat]
      rw [List.getElem?_set_self (by rw [len_getD]; exact hgt)]
    · intro j _ hne
      have hne2 : k ≠ j := fun e => hne (by rw [e])
      simp only [at?]
      rw [List.getElem?_set_ne hne2]
      cases hv : v.arr <;> simp
    · intro _
      simp only [len_some, List.length_set, len_getD]

/-- C8 at concrete nodes: `SetArray 2` on a fresh node, then `SetArray 1` on the
result, whose index 2 and length 3 are kept. -/
theorem C8_SetArray_child_and_frame_witness :
    (NewUndefined.SetArray 2
        = Outcome.ret (NewUndefined.SetArray 2).node (some NewUndefined, none)) ∧
    ((NewUndefined.SetArray 2).node.SetArray 1
        = Outcome.ret ((NewUndefined.SetArray 2).node.SetArray 1).node
            (some NewUndefined, none)) ∧
    at? ((NewUndefined.SetArray 2).node.SetArray 1).node.arr 1 = some (some NewUndefined) ∧
    at? ((NewUndefined.SetArray 2).node.SetArray 1).node.arr 2
        = at? (NewUndefined.SetArray 2).node.arr 2 ∧
    len ((NewUndefined.SetArray 2).node.SetArray 1).node.arr = 3 :=
  ⟨rfl, rfl,
   (C8_SetArray_child_and_frame (NewUndefined.SetArray 2).node
      ((NewUndefined.SetArray 2).node.SetArray 1).node 1 (some NewUndefined) rfl).2.1,
   (C8_SetArray_child_and_frame (NewUndefined.SetArray 2).node
      ((NewUndefined.SetArray 2).node.SetArray 1).node 1 (some NewUndefined) rfl).2.2.1 2
      (by decide) (by decide),
   (C8_SetArray_child_and_frame (NewUndefined.SetArray 2).node
      ((NewUndefined.SetArray 2).node.SetArray 1).node 1 (some NewUndefined) rfl).2.2.2
      (by decide)⟩

/-- C9: for a negative index `i`, whatever the kind of the node, `SetArray i`
returns no child and the bad-index error carrying `i`, and the node is exactly
as it was. -/
theorem C9_SetArray_negative_index (v : Value) (i : Int) (h : i < 0) :
    v.SetArray i = Outcome.ret v (none, some (Error.badIndex i)) ∧
    (v.SetArray i).node = v ∧ (v.SetArray i).node.Type = v.Type := by
  rw [SetArray_neg v i h]
  exact ⟨rfl, rfl, rfl⟩

/-- C9 at a concrete node: `SetArray (-1)` on a fresh node, which stays
`Undefined`. -/
theorem C9_SetArray_negative_index_witness :
    NewUndefined.SetArray (-1) = Outcome.ret NewUndefined (none, some (Error.badIndex (-1))) ∧
    (NewUndefined.SetArray (-1)).node = NewUndefined ∧
    (NewUndefined.SetArray (-1)).node.Type = NewUndefined.Type :=
  C9_SetArray_negative_index NewUndefined (-1) (by decide)

/-- C10: on a node whose kind is a concrete kind other than `Array`, for every
index `i ≥ 0`, `SetArray i` returns no child and the error built from the
expected kind `Array` and the actual kind, and the node is exactly as it was. -/
theorem C10_SetArray_rejects_other_kind (v : Value) (i : Int)
    (hdef : v.vType ≠ VType.Undefined) (hne : v.vType ≠ VType.Array) (hi : 0 ≤ i) :
    v.SetArray i = Outcome.ret v (none, some (Error.badVType VType.Array v.vType)) ∧
    (v.SetArray i).node = v := by
  rw [SetArray_badVType v i hi hdef hne]
  exact ⟨rfl, rfl⟩

/-- C10 at a concrete node: `SetArray 0` on a node locked to `Str` by
`SetString "x"`. -/
theorem C10_SetArray_rejects_other_kind_witness :
    (NewUndefined.SetString "x").1.SetArray 0
        = Outcome.ret (NewUndefined.SetString "x").1
            (none, some (Error.badVType VType.Array (NewUndefined.SetString "x").1.vType)) ∧
    ((NewUndefined.SetString "x").1.SetArray 0).node = (NewUndefined.SetString "x").1 :=
  C10_SetArray_rejects_other_kind (NewUndefined.SetString "x").1 0 (by decide) (by decide)
    (by decide)

/-! ## The object accessor -/

/-- C11 (`SetObject` returns an error on a node of another concrete kind),
evaluated where the code departs from it: on a node locked to `Str` by
`SetString "x"`, `SetObject "k"` returns a child and a nil error, and the node
is changed: its kind is `Object` and its map holds `"k"`. -/
theorem C11_SetObject_on_Str_returns_no_error :
    (NewUndefined.SetString "x").1.Type = VType.Str ∧
    ((NewUndefined.SetString "x").1.SetObject "k").val? = some (some NewUndefined, none) ∧
    ((NewUndefined.SetString "x").1.SetObject "k").node.Type = VType.Object ∧
    ((NewUndefined.SetString "x").1.SetObject "k").node.obj
      = some [("k", some NewUndefined)] :=
  ⟨by decide, rfl, by decide, rfl⟩

/-- C12: on a node of kind `Undefined` or `Object`, for every key, `SetObject`
returns a fresh `Undefined` child and a nil error, the kind is `Object`
afterwards, a nil map becomes the map with the single entry of the key, the key
maps to the returned child, and every other key maps to what it mapped to
before. -/
theorem C12_SetObject_inserts_fresh_child (v : Value) (key : String)
    (hk : v.vType = VType.Undefined ∨ v.vType = VType.Object) :
    v.SetObject key = Outcome.ret (v.SetObject key).node (some NewUndefined, none) ∧
    (v.SetObject key).node.Type = VType.Object ∧
    (v.obj = none → (v.SetObject key).node.obj = some [(key, some NewUndefined)]) ∧
    mapGet? (v.SetObject key).node.obj key = some (some NewUndefined) ∧
    (∀ k2 : String, k2 ≠ key → mapGet? (v.SetObject key).node.obj k2 = mapGet? v.obj k2) := by
  have _ := hk
  rw [SetObject_eq]
  refine ⟨rfl, rfl, ?_, ?_, ?_⟩
  · intro hnone
    simp [Outcome.node, hnone, assocSet]
  · simp only [Outcome.node, mapGet?]
    exact lookup_assocSet_self _ _ _
  · intro k2 hne
    simp only [Outcome.node, mapGet?]
    rw [lookup_assocSet_ne _ _ _ _ hne]
    cases hv : v.obj <;> simp [List.lookup]

/-- C12 at concrete nodes: the empty key on a fresh node, and a second key on
the resulting `Object` node, which keeps the first. -/
theorem C12_SetObject_inserts_fresh_child_witness :
    (NewUndefined.SetObject "").node.Type = VType.Object ∧
    (NewUndefined.SetObject "").node.obj = some [("", some NewUndefined)] ∧
    mapGet? ((NewUndefined.SetObject "").node.SetObject "b").node.obj "b"
      = some (some NewUndefined) ∧
    mapGet? ((NewUndefined.SetObject "").node.SetObject "b").node.obj ""
      = mapGet? (NewUndefined.SetObject "").node.obj "" :=
  ⟨(C12_SetObject_inserts_fresh_child NewUndefined "" (Or.inl rfl)).2.1,
   (C12_SetObject_inserts_fresh_child NewUndefined "" (Or.inl rfl)).2.2.1 rfl,
   (C12_SetObject_inserts_fresh_child (NewUndefined.SetObject "").node "b"
      (Or.inr (by decide))).2.2.2.1,
   (C12_SetObject_inserts_fresh_child (NewUndefined.SetObject "").node "b"
      (Or.inr (by decide))).2.2.2.2 "" (by decide)⟩

/-- C13: on a node of kind `Undefined` or `Object` whose map holds each key
once, `SetObject k` called twice ends exactly as `SetObject k` called once, also
when the first child was written to in between; the map then has one entry for
`k`, holding a fresh `Undefined` node, and has size 1 when it was empty at the
start. -/
theorem C13_SetObject_twice_replaces (v : Value) (k : String)
    (hk : v.vType = VType.Undefined ∨ v.vType = VType.Object) (hwf : mapWF v.obj) :
    (v.SetObject k).node.SetObject k = v.SetObject k ∧
    (∀ c : Value, ((v.SetObject k).node.withChild k c).SetObject k = v.SetObject k) ∧
    mapGet? ((v.SetObject k).node.SetObject k).node.obj k = some (some NewUndefined) ∧
    (mapKeys ((v.SetObject k).node.SetObject k).node.obj).count k = 1 ∧
    (mapLen v.obj = 0 → mapLen ((v.SetObject k).node.SetObject k).node.obj = 1) := by
  have _ := hk
  have h2 : (v.SetObject k).node.SetObject k = v.SetObject k := by
    rw [SetObject_eq v k, SetObject_eq]
    simp [Outcome.node, assocSet_assocSet]
  refine ⟨h2, ?_, ?_, ?_, ?_⟩
  · intro c
    rw [SetObject_eq v k, SetObject_eq]
    simp [Outcome.node, Value.withChild, lookup_assocSet_self, assocSet_assocSet]
  · rw [h2, SetObject_eq]
    simp only [Outcome.node, mapGet?]
    exact lookup_assocSet_self _ _ _
  · rw [h2, SetObject_eq]
    simp only [Outcome.node, mapKeys]
    apply List.count_eq_one_of_mem
    · apply nodup_keys_assocSet
      cases hv : v.obj with
      | none => simp
      | some l => simpa [mapWF, mapKeys, hv] using hwf
    · exact mem_keys_assocSet _ _ _
  · intro h0
    rw [h2, SetObject_eq]
    cases hv : v.obj with
    | none => simp [Outcome.node, mapLen, assocSet]
    | some l =>
      have hl : l = [] := by simpa [mapLen, hv] using h0
      simp [Outcome.node, mapLen, assocSet, hl]

/-- C13 at a concrete node: `SetObject "a"` twice on a fresh node, with the
first child set to the string `"x"` in between. -/
theorem C13_SetObject_twice_replaces_witness :
    (NewUndefined.SetObject "a").node.SetObject "a" = NewUndefined.SetObject "a" ∧
    ((NewUndefined.SetObject "a").node.withChild "a" (NewUndefined.SetString "x").1).SetObject "a"
      = NewUndefined.SetObject "a" ∧
    mapGet? ((NewUndefined.SetObject "a").node.withChild "a" (NewUndefined.SetString "x").1).obj
        "a" = some (some (NewUndefined.SetString "x").1) ∧
    mapLen ((NewUndefined.SetObject "a").node.SetObject "a").node.obj = 1 :=
  ⟨(C13_SetObject_twice_replaces NewUndefined "a" (Or.inl rfl) List.nodup_nil).1,
   (C13_SetObject_twice_replaces NewUndefined "a" (Or.inl rfl) List.nodup_nil).2.1
      (NewUndefined.SetString "x").1,
   rfl,
   (C13_SetObject_twice_replaces NewUndefined "a" (Or.inl rfl) List.nodup_nil).2.2.2.2 rfl⟩

/-! ## Release, the user-defined setter and the constructors -/

/-- C14: `release` always returns; it leaves the kind and the five scalar fields
as they are, and clears the field selected by the kind: `udt` for `UDT`, `arr`
for `Array`, `obj` for `Object`, and nothing for any other kind; after a
successful `SetUdt t p` it leaves the kind `UDT` and the payload nil. -/
theorem C14_release_clears_selected_slot (v : Value) :
    (v.release.Type = v.Type ∧ v.release.i = v.i ∧ v.release.u = v.u ∧
      v.release.f = v.f ∧ v.release.s = v.s ∧ v.release.b = v.b) ∧
    (v.vType = VType.UDT → v.release = { v with udt := none }) ∧
    (v.vType = VType.Array → v.release = { v with arr := none }) ∧
    (v.vType = VType.Object → v.release = { v with obj := none }) ∧
    (v.vType ≠ VType.UDT → v.vType ≠ VType.Array → v.vType ≠ VType.Object →
      v.release = v) ∧
    (∀ (t : Int) (p : Option Dyn), (v.SetUdt t p).2 = none →
      (v.SetUdt t p).1.release.Type = VType.UDT ∧ (v.SetUdt t p).1.release.udt = none) := by
  refine ⟨?_, ?_, ?_, ?_, ?_, ?_⟩
  · unfold Value.release Value.Type
    split
    · exact ⟨rfl, rfl, rfl, rfl, rfl, rfl⟩
    · split
      · exact ⟨rfl, rfl, rfl, rfl, rfl, rfl⟩
      · split <;> exact ⟨rfl, rfl, rfl, rfl, rfl, rfl⟩
  · intro h
    simp [Value.release, h]
  · intro h
    simp [Value.release, h]
  · intro h
    simp [Value.release, h]
  · intro h1 h2 h3
    simp [Value.release, h1, h2, h3]
  · intro t p hok
    by_cases hg : v.vType ≠ VType.Undefined ∧ v.vType ≠ VType.UDT
    · simp [Value.SetUdt, hg] at hok
    · simp [Value.SetUdt, hg, Value.release, Value.Type]

/-- C14 at concrete nodes: release after `SetUdt 3 p`, on an `Object` node with
one entry, and on a node holding the integer 5. -/
theorem C14_release_clears_selected_slot_witness :
    ((NewUndefined.SetUdt 3 (some ⟨9⟩)).1.release.Type = VType.UDT ∧
      (NewUndefined.SetUdt 3 (some ⟨9⟩)).1.release.udt = none) ∧
    (NewUndefined.SetObject "a").node.release
      = { (NewUndefined.SetObject "a").node with obj := none } ∧
    (NewUndefined.SetInt 5).1.release = (NewUndefined.SetInt 5).1 :=
  ⟨(C14_release_clears_selected_slot NewUndefined).2.2.2.2.2 3 (some ⟨9⟩) rfl,
   (C14_release_clears_selected_slot (NewUndefined.SetObject "a").node).2.2.2.1 (by decide),
   (C14_release_clears_selected_slot (NewUndefined.SetInt 5).1).2.2.2.2.1
      (by decide) (by decide) (by decide)⟩

/-- C15 as stated fails: `SetUdt 1 p` and `SetUdt 2 p` on a fresh node both
succeed and leave the same node, although the sub-types differ. -/
theorem C15_subtype_is_dropped_counterexample :
    (1 : Int) ≠ 2 ∧
    (NewUndefined.SetUdt 1 (some ⟨7⟩)).2 = none ∧
    (NewUndefined.SetUdt 2 (some ⟨7⟩)).2 = none ∧
    (NewUndefined.SetUdt 1 (some ⟨7⟩)).1 = (NewUndefined.SetUdt 2 (some ⟨7⟩)).1 :=
  ⟨by decide, rfl, rfl, rfl⟩

/-- C15, amended: on a node of kind `Undefined` or `UDT`, `SetUdt t p` succeeds
and the node then holds the payload `p` and kind `UDT`, every other field as
before; the sub-type `t` is not stored, so calls that differ only in the sub-type
leave the same node. -/
theorem C15_SetUdt_stores_payload_only (v : Value) (t : Int) (p : Option Dyn)
    (hk : v.vType = VType.Undefined ∨ v.vType = VType.UDT) :
    v.SetUdt t p = ({ v with vType := VType.UDT, udt := p }, none) ∧
    (v.SetUdt t p).1.udt = p ∧
    (∀ t2 : Int, v.SetUdt t2 p = v.SetUdt t p) := by
  have hg : ¬ (v.vType ≠ VType.Undefined ∧ v.vType ≠ VType.UDT) := by
    rcases hk with h | h <;> simp [h]
  simp [Value.SetUdt, hg]

/-- C15, amended, at a concrete node: `SetUdt 3 p` on a fresh node. -/
theorem C15_SetUdt_stores_payload_only_witness :
    NewUndefined.SetUdt 3 (some ⟨9⟩)
      = ({ NewUndefined with vType := VType.UDT, udt := some ⟨9⟩ }, none) ∧
    (NewUndefined.SetUdt 3 (some ⟨9⟩)).1.udt = some ⟨9⟩ ∧
    (∀ t2 : Int, NewUndefined.SetUdt t2 (some ⟨9⟩) = NewUndefined.SetUdt 3 (some ⟨9⟩)) :=
  C15_SetUdt_stores_payload_only NewUndefined 3 (some ⟨9⟩) (Or.inl rfl)

/-- C16: for every kind `k`, `New k` is a node whose `Type()` is `k` and whose
other fields all have their zero value; `New Undefined` is `NewUndefined`; and
`valid` is true exactly on the nodes whose kind is not `Undefined`. -/
theorem C16_New_and_valid (k : VType) (v : Value) :
    (New k).Type = k ∧
    (New k).i = 0 ∧ (New k).u = 0 ∧ (New k).f = ⟨0⟩ ∧ (New k).s = "" ∧ (New k).b = false ∧
    (New k).udt = none ∧ (New k).arr = none ∧ (New k).obj = none ∧
    New VType.Undefined = NewUndefined ∧
    (v.valid = true ↔ v.Type ≠ VType.Undefined) := by
  refine ⟨rfl, rfl, rfl, rfl, rfl, rfl, rfl, rfl, rfl, rfl, ?_⟩
  simp [Value.valid, Value.Type]

/-! ## Behaviour of the accessors as written -/

/-- C17 as stated fails: on a fresh node, whose sequence has length 0, the index
`2^63 - 1` differs from the length, yet `SetArray` does not reach an in-bounds
write: `i + 1` wraps to a negative length, `make` panics, and the length is
still 0 and not `i + 1`. -/
theorem C17_largest_index_counterexample :
    NewUndefined.vType = VType.Undefined ∧
    (0 : Int) ≤ 9223372036854775807 ∧
    (len NewUndefined.arr : Int) ≠ 9223372036854775807 ∧
    wrapInt (9223372036854775807 + 1) = -9223372036854775808 ∧
    NewUndefined.SetArray 9223372036854775807 = Outcome.panic NewUndefined ∧
    (NewUndefined.SetArray 9223372036854775807).panicked = true ∧
    len (NewUndefined.SetArray 9223372036854775807).node.arr = 0 :=
  ⟨by decide, by decide, by decide, by decide, rfl, rfl, rfl⟩

/-- C17, amended: on a node of kind `Undefined` or `Array` with a sequence of
length `n`, for every index `i ≥ 0` such that `i + 1` pointers are within the
bound of `make`, `SetArray i` completes its slice write exactly when `n ≠ i`; the
length is then `i + 1` when `n < i` and `n` when `i < n`; when `n = i` the
sequence is not grown, the write at `i` is out of range and the call panics. -/
theorem C17_SetArray_write_in_bounds_iff (v : Value) (i : Int)
    (hk : v.vType = VType.Undefined ∨ v.vType = VType.Array) (hi : 0 ≤ i)
    (hb : ptrSize * (i + 1) ≤ maxAlloc) :
    ((v.SetArray i).panicked = false ↔ (len v.arr : Int) ≠ i) ∧
    ((len v.arr : Int) < i → (len (v.SetArray i).node.arr : Int) = i + 1) ∧
    (i < (len v.arr : Int) → len (v.SetArray i).node.arr = len v.arr) ∧
    ((len v.arr : Int) = i →
      v.SetArray i = Outcome.panic v ∧ setIndex v.arr i (some NewUndefined) = none) := by
  obtain ⟨k, rfl⟩ := Int.eq_ofNat_of_zero_le hi
  rcases lt_trichotomy (len v.arr) k with hlt | heq | hgt
  · rw [SetArray_grow v k hk hlt hb]
    refine ⟨⟨fun _ => by omega, fun _ => rfl⟩, ?_, ?_, ?_⟩
    · intro _
      simp only [Outcome.node, len_some, List.length_set, List.length_append,
        List.length_replicate, len_getD]
      omega
    · intro h; omega
    · intro h; omega
  · rw [SetArray_panic v k hk heq]
    refine ⟨⟨fun h => by simp [Outcome.panicked] at h, fun h => by omega⟩, ?_, ?_, ?_⟩
    · intro h; omega
    · intro h; omega
    · intro _
      refine ⟨rfl, ?_⟩
      cases hv : v.arr with
      | none => rfl
      | some l =>
        have hl : l.length = k := by simpa [hv, len] using heq
        simp [setIndex, hl]
  · rw [SetArray_inplace v k hk hgt]
    refine ⟨⟨fun _ => by omega, fun _ => rfl⟩, ?_, ?_, ?_⟩
    · intro h; omega
    · intro _
      simp only [Outcome.node, len_some, List.length_set, len_getD]
    · intro h; omega

/-- C17, amended, at concrete nodes: `SetArray 0` on the nodes of `NewUndefined`
and `New Array`, `SetArray 6` right after `SetArray 5`, and the two writes that
are in bounds, `SetArray 5` on a fresh node and `SetArray 2` after it. -/
theorem C17_SetArray_write_in_bounds_iff_witness :
    NewUndefined.SetArray 0 = Outcome.panic NewUndefined ∧
    (New VType.Array).SetArray 0 = Outcome.panic (New VType.Array) ∧
    ((NewUndefined.SetArray 5).node.SetArray 6).panicked = true ∧
    (len (NewUndefined.SetArray 5).node.arr : Int) = 5 + 1 ∧
    len ((NewUndefined.SetArray 5).node.SetArray 2).node.arr
      = len (NewUndefined.SetArray 5).node.arr :=
  ⟨((C17_SetArray_write_in_bounds_iff NewUndefined 0 (Or.inl rfl) (by decide)
      (by decide)).2.2.2 (by decide)).1,
   ((C17_SetArray_write_in_bounds_iff (New VType.Array) 0 (Or.inr rfl) (by decide)
      (by decide)).2.2.2 (by decide)).1,
   by
     rw [((C17_SetArray_write_in_bounds_iff (NewUndefined.SetArray 5).node 6 (Or.inl (by decide))
       (by decide) (by decide)).2.2.2 (by decide)).1]
     rfl,
   (C17_SetArray_write_in_bounds_iff NewUndefined 5 (Or.inl rfl) (by decide)
      (by decide)).2.1 (by decide),
   (C17_SetArray_write_in_bounds_iff (NewUndefined.SetArray 5).node 2 (Or.inl (by decide))
      (by decide) (by decide)).2.2.1 (by decide)⟩

/-- C18: on a node of any kind, for every key, `SetObject` returns a child and a
nil error, the kind is `Object` afterwards, and the scalar fields, the
user-defined payload and the sequence are what they were. -/
theorem C18_SetObject_coerces_any_kind (v : Value) (key : String) :
    v.SetObject key = Outcome.ret (v.SetObject key).node (some NewUndefined, none) ∧
    (v.SetObject key).node.Type = VType.Object ∧
    (v.SetObject key).node.i = v.i ∧ (v.SetObject key).node.u = v.u ∧
    (v.SetObject key).node.f = v.f ∧ (v.SetObject key).node.s = v.s ∧
    (v.SetObject key).node.b = v.b ∧ (v.SetObject key).node.udt = v.udt ∧
    (v.SetObject key).node.arr = v.arr := by
  rw [SetObject_eq]
  exact ⟨rfl, rfl, rfl, rfl, rfl, rfl, rfl, rfl, rfl⟩

/-- C19 (only the slot of the current kind is non-empty), evaluated where the
code departs from it: after `SetArray 1` on a fresh node the kind is `Undefined`
and the sequence has two slots; after `SetInt 5` and `SetObject "a"` the kind is
`Object` and the integer field still holds 5. -/
theorem C19_slots_outside_current_kind :
    (NewUndefined.SetArray 1).panicked = false ∧
    (NewUndefined.SetArray 1).node.Type = VType.Undefined ∧
    (NewUndefined.SetArray 1).node.arr = some [none, some NewUndefined] ∧
    ((NewUndefined.SetInt 5).1.SetObject "a").panicked = false ∧
    ((NewUndefined.SetInt 5).1.SetObject "a").node.Type = VType.Object ∧
    ((NewUndefined.SetInt 5).1.SetObject "a").node.i = 5 :=
  ⟨by decide, by decide, rfl, by decide, by decide, by decide⟩

/-- C20: for every index `i ≥ 1`, when `SetArray i` on a fresh node has returned
a nil error, the kind of the node is still `Undefined`, so that the following
`release` changes nothing: the sequence keeps its length `i + 1` and its
entries. -/
theorem C20_release_after_SetArray_keeps_sequence (w : Value) (i : Int) (c : Option Value)
    (hi : 1 ≤ i) (h : NewUndefined.SetArray i = Outcome.ret w (c, none)) :
    w.Type = VType.Undefined ∧
    w.release = w ∧
    w.release.arr = w.arr ∧
    (len w.release.arr : Int) = i + 1 := by
  obtain ⟨k, rfl⟩ := Int.eq_ofNat_of_zero_le (by omega : 0 ≤ i)
  have hlt : len NewUndefined.arr < k := by
    have : len NewUndefined.arr = 0 := rfl
    omega
  have hb := SetArray_bound_of_ret NewUndefined w k (c, none) (Or.inl rfl) hlt h
  rw [SetArray_grow NewUndefined k (Or.inl rfl) hlt hb] at h
  simp only [Outcome.ret.injEq] at h
  obtain ⟨rfl, -⟩ := h
  have hrel : ∀ a : Option (List (Option Value)),
      ({ NewUndefined with arr := a } : Value).release = { NewUndefined with arr := a } := by
    intro a
    simp [Value.release, NewUndefined]
  refine ⟨rfl, hrel _, ?_, ?_⟩
  · rw [hrel]
  · rw [hrel]
    simp only [len_some, List.length_set, List.length_append, List.length_replicate, len_getD]
    have : len NewUndefined.arr = 0 := rfl
    omega

/-- C20 at a concrete index: `SetArray 1` on a fresh node returns a nil error,
then `release` leaves the two slots in place. -/
theorem C20_release_after_SetArray_keeps_sequence_witness :
    NewUndefined.SetArray 1
      = Outcome.ret (NewUndefined.SetArray 1).node (some NewUndefined, none) ∧
    (NewUndefined.SetArray 1).node.Type = VType.Undefined ∧
    (NewUndefined.SetArray 1).node.release = (NewUndefined.SetArray 1).node ∧
    (NewUndefined.SetArray 1).node.release.arr = (NewUndefined.SetArray 1).node.arr ∧
    (len (NewUndefined.SetArray 1).node.release.arr : Int) = 1 + 1 :=
  ⟨rfl, C20_release_after_SetArray_keeps_sequence (NewUndefined.SetArray 1).node 1
    (some NewUndefined) (by decide) rfl⟩

end goudp
